import Mathlib

/-!
Verification of the factory-dependency resolver of the
`hardhat-zksync-zksync2js` package
(`src/packages/hardhat-zksync-zksync2js/src/helpers.ts`).

The artifact store (`hre.artifacts`) is modelled as an association list from
artifact names to artifacts; `readArtifact` is a lookup in that list.  A
JavaScript object's `for...in` loop visits non-index string keys in insertion
order, so the `factoryDeps` record is modelled as an insertion-ordered list of
(dependency-hash key, fully-qualified name) pairs.  The unbounded JavaScript
recursion of `extractFactoryDepsRecursive` is modelled with an explicit fuel
parameter that bounds only the nesting depth of graph recursion; fuel
sufficiency for the default fuel is proved below, which is the termination
argument for the original program.
-/

/-- A compiled zkSync contract artifact, as consumed by `helpers.ts`:
`sourceName`, `contractName`, `abi`, `bytecode`, the `_format` compiler tag,
and the `factoryDeps` record mapping dependency-hash keys to fully-qualified
`sourceName:contractName` identities. -/
structure ZkSyncArtifact where
  sourceName : String
  contractName : String
  abi : List String
  bytecode : String
  _format : String
  factoryDeps : List (String × String)
deriving DecidableEq, Repr

/-- Modelled from the spec: the recognized zksolc compiler format tag
(defined in `constants.ts`, which is outside the provided sources; the spec
only requires a fixed two-element allow-list of recognized compiler tags). -/
def ZKSOLC_ARTIFACT_FORMAT_VERSION : String := "hh-zksolc-artifact-1"

/-- Modelled from the spec: the recognized zkvyper compiler format tag
(defined in `constants.ts`, outside the provided sources). -/
def ZKVYPER_ARTIFACT_FORMAT_VERSION : String := "hh-zkvyper-artifact-1"

/-- The artifact store backing `hre.artifacts.readArtifact`: an association
list from artifact names (fully-qualified identities) to artifacts. -/
abbrev ArtifactStore := List (String × ZkSyncArtifact)

/-- `hre.artifacts.readArtifact`: look an artifact up by name; `none` models
the host framework's NotFound failure. -/
def readArtifact (store : ArtifactStore) (name : String) : Option ZkSyncArtifact :=
  store.lookup name

/-- The two failure kinds of the loader: the host framework's NotFound, and
the plugin's own "was not compiled by zksolc or zkvyper" error.  Both carry
the requested artifact name. -/
inductive LoadError where
  | notFound (name : String)
  | notCompiledByExpectedToolchain (name : String)
deriving DecidableEq, Repr

/-- The artifact name carried by a load error (the offending artifact). -/
def LoadError.artifactName : LoadError → String
  | .notFound n => n
  | .notCompiledByExpectedToolchain n => n

/-- `loadArtifact` from `helpers.ts`: read the artifact, then fail unless its
`_format` tag is one of the two recognized zkSync compiler tags. -/
def loadArtifact (store : ArtifactStore) (name : String) :
    Except LoadError ZkSyncArtifact :=
  match readArtifact store name with
  | none => Except.error (LoadError.notFound name)
  | some artifact =>
    if artifact._format ≠ ZKSOLC_ARTIFACT_FORMAT_VERSION ∧
        artifact._format ≠ ZKVYPER_ARTIFACT_FORMAT_VERSION then
      Except.error (LoadError.notCompiledByExpectedToolchain name)
    else
      Except.ok artifact

/-- The fully-qualified identity `sourceName:contractName` of an artifact. -/
def fqn (artifact : ZkSyncArtifact) : String :=
  artifact.sourceName ++ ":" ++ artifact.contractName

/-- The `for...in` loop body of `extractFactoryDepsRecursive`, with the
mutable visited set threaded explicitly (the JavaScript `Set` is shared down
the recursion, so every call returns the updated visited list alongside the
collected bytecodes).  `fuel` bounds only the graph-recursion depth; `none`
means the fuel ran out.  For each dependency entry not yet visited the loop
loads the dependency, pushes its bytecode, marks it visited, recurses into
its own `factoryDeps`, and appends the transitive result. -/
def extractFactoryDepsLoop (store : ArtifactStore) :
    Nat → List (String × String) → List String →
    Option (Except LoadError (List String × List String))
  | _, [], visited => some (Except.ok ([], visited))
  | fuel, (_, dependencyContract) :: rest, visited =>
    if dependencyContract ∈ visited then
      extractFactoryDepsLoop store fuel rest visited
    else
      match loadArtifact store dependencyContract with
      | Except.error e => some (Except.error e)
      | Except.ok dependencyArtifact =>
        match fuel with
        | 0 => none
        | fuel' + 1 =>
          match extractFactoryDepsLoop store fuel' dependencyArtifact.factoryDeps
              (dependencyContract :: visited) with
          | none => none
          | some (Except.error e) => some (Except.error e)
          | some (Except.ok (transitiveDeps, visited')) =>
            match extractFactoryDepsLoop store (fuel' + 1) rest visited' with
            | none => none
            | some (Except.error e) => some (Except.error e)
            | some (Except.ok (restDeps, visited'')) =>
              some (Except.ok
                (dependencyArtifact.bytecode :: (transitiveDeps ++ restDeps),
                  visited''))
termination_by fuel deps _ => (fuel, deps.length)

/-- `extractFactoryDepsRecursive` from `helpers.ts`: iterate the artifact's
`factoryDeps` entries with the given visited set. -/
def extractFactoryDepsRecursive (store : ArtifactStore) (fuel : Nat)
    (artifact : ZkSyncArtifact) (visited : List String) :
    Option (Except LoadError (List String × List String)) :=
  extractFactoryDepsLoop store fuel artifact.factoryDeps visited

/-- Default fuel: one more than the store size.  Each graph recursion inserts
a fresh store key into the visited set, so the recursion depth never exceeds
the number of store keys; sufficiency is proved below. -/
def defaultFuel (store : ArtifactStore) : Nat := store.length + 1

/-- `extractFactoryDeps` from `helpers.ts`: seed the visited set with the
root's own `sourceName:contractName` identity and run the recursion. -/
def extractFactoryDeps (store : ArtifactStore) (artifact : ZkSyncArtifact) :
    Option (Except LoadError (List String)) :=
  match extractFactoryDepsRecursive store (defaultFuel store) artifact
      [fqn artifact] with
  | none => none
  | some (Except.error e) => some (Except.error e)
  | some (Except.ok (deps, _)) => some (Except.ok deps)

/-- Modelled from the spec: the pre-order depth-first first-discovery
traversal of §4.1, emitting the fully-qualified *identity* of each newly
discovered dependency (instead of its bytecode) at the moment it is first
visited, with the same visited-set threading and the same fuel discipline as
the implementation loop. -/
def specPreorderLoop (store : ArtifactStore) :
    Nat → List (String × String) → List String →
    Option (Except LoadError (List String × List String))
  | _, [], visited => some (Except.ok ([], visited))
  | fuel, (_, dependencyContract) :: rest, visited =>
    if dependencyContract ∈ visited then
      specPreorderLoop store fuel rest visited
    else
      match loadArtifact store dependencyContract with
      | Except.error e => some (Except.error e)
      | Except.ok dependencyArtifact =>
        match fuel with
        | 0 => none
        | fuel' + 1 =>
          match specPreorderLoop store fuel' dependencyArtifact.factoryDeps
              (dependencyContract :: visited) with
          | none => none
          | some (Except.error e) => some (Except.error e)
          | some (Except.ok (transitiveIds, visited')) =>
            match specPreorderLoop store (fuel' + 1) rest visited' with
            | none => none
            | some (Except.error e) => some (Except.error e)
            | some (Except.ok (restIds, visited'')) =>
              some (Except.ok
                (dependencyContract :: (transitiveIds ++ restIds), visited''))
termination_by fuel deps _ => (fuel, deps.length)

/-- Modelled from the spec: the sequence of fully-qualified identities in
pre-order depth-first first-discovery order, starting from the root with the
visited set seeded with the root's identity. -/
def specPreorder (store : ArtifactStore) (artifact : ZkSyncArtifact) :
    Option (Except LoadError (List String)) :=
  match specPreorderLoop store (defaultFuel store) artifact.factoryDeps
      [fqn artifact] with
  | none => none
  | some (Except.error e) => some (Except.error e)
  | some (Except.ok (ids, _)) => some (Except.ok ids)

/-- The bytecode the loader returns for a given identity (junk default when
the load fails; every identity emitted by a successful traversal loads
successfully, so the default is never observed there). -/
def bytecodeOf (store : ArtifactStore) (name : String) : String :=
  match loadArtifact store name with
  | Except.ok artifact => artifact.bytecode
  | Except.error _ => ""

/-! ### Model of `getContractFactoryFromArtifact` (claim C10)

Wallets and contract factories are external SDK values; only their
construction order matters here, so the model records the side effects
(default-wallet resolution, factory construction) of
`getContractFactoryByAbiAndBytecode` as an explicit event trace.  The
`isArtifact` runtime shape check of `utils.ts` always succeeds on a value of
the typed artifact record, so it imposes no condition in this embedding. -/

/-- A wallet, kept abstract (only its identity matters to the model). -/
structure Wallet where
  id : Nat
deriving DecidableEq, Repr

/-- `FactoryOptions` from `types.ts`: an optional wallet. -/
structure FactoryOptions where
  wallet : Option Wallet
deriving DecidableEq, Repr

/-- The observable side effects of factory construction. -/
inductive FactoryEvent where
  | resolvedDefaultWallet
  | constructedFactory
deriving DecidableEq, Repr

/-- The `ContractFactory` value produced at the end. -/
structure ContractFactory where
  abi : List String
  bytecode : String
  wallet : Wallet
deriving DecidableEq, Repr

/-- The abstract-contract error message thrown by
`getContractFactoryFromArtifact` for bytecode `"0x"`. -/
def abstractContractMsg (contractName : String) : String :=
  "You are trying to create a contract factory for the contract " ++
    contractName ++
    ", which is abstract and can\x27t be deployed.\nIf you want to call a contract using " ++
    contractName ++
    " as its interface use the \x22getContractAt\x22 function instead."

/-- `getContractFactoryByAbiAndBytecode` from `helpers.ts`: resolve the
default wallet when none was supplied, then construct the factory.  Returns
the event trace in execution order alongside the factory. -/
def getContractFactoryByAbiAndBytecode (abi : List String) (bytecode : String)
    (wallet : Option Wallet) (defaultWallet : Wallet) :
    List FactoryEvent × ContractFactory :=
  match wallet with
  | none =>
    ([FactoryEvent.resolvedDefaultWallet, FactoryEvent.constructedFactory],
      { abi := abi, bytecode := bytecode, wallet := defaultWallet })
  | some w =>
    ([FactoryEvent.constructedFactory],
      { abi := abi, bytecode := bytecode, wallet := w })

/-- `getContractFactoryFromArtifact` from `helpers.ts`: extract the wallet
from the wallet-or-options argument, reject an abstract artifact (bytecode
`"0x"`) with a `ZkSync2JsPluginError`, and otherwise delegate to
`getContractFactoryByAbiAndBytecode`.  The error message is returned as the
`Except.error` payload; the first component is the event trace. -/
def getContractFactoryFromArtifact (artifact : ZkSyncArtifact)
    (walletOrOptions : Option (Wallet ⊕ FactoryOptions))
    (defaultWallet : Wallet) :
    List FactoryEvent × Except String ContractFactory :=
  let wallet : Option Wallet :=
    match walletOrOptions with
    | some (Sum.inr options) => options.wallet
    | some (Sum.inl w) => some w
    | none => none
  if artifact.bytecode = "0x" then
    ([], Except.error (abstractContractMsg artifact.contractName))
  else
    let result := getContractFactoryByAbiAndBytecode artifact.abi
      artifact.bytecode wallet defaultWallet
    (result.1, Except.ok result.2)

/-! ### Concrete example graphs -/

/-- A plain test artifact with the zksolc format tag. -/
def mkArtifact (src ctr bytecode : String) (deps : List (String × String)) :
    ZkSyncArtifact :=
  { sourceName := src, contractName := ctr, abi := [], bytecode := bytecode,
    _format := ZKSOLC_ARTIFACT_FORMAT_VERSION, factoryDeps := deps }

/-- Diamond root `A` with deps `{h1 ↦ src:B, h2 ↦ src:C}`. -/
def artifactA : ZkSyncArtifact :=
  mkArtifact "src" "A" "0xAA" [("h1", "src:B"), ("h2", "src:C")]

/-- Diamond node `B` with dep `{h3 ↦ src:D}`. -/
def artifactB : ZkSyncArtifact := mkArtifact "src" "B" "0xBB" [("h3", "src:D")]

/-- Diamond node `C` with dep `{h4 ↦ src:D}`. -/
def artifactC : ZkSyncArtifact := mkArtifact "src" "C" "0xCC" [("h4", "src:D")]

/-- Diamond leaf `D` with no deps. -/
def artifactD : ZkSyncArtifact := mkArtifact "src" "D" "0xDD" []

/-- The diamond store: A→{B,C}, B→{D}, C→{D}, D→{}. -/
def diamondStore : ArtifactStore :=
  [("src:A", artifactA), ("src:B", artifactB), ("src:C", artifactC),
    ("src:D", artifactD)]

/-- Cycle node `A` referencing `B`. -/
def cycleA : ZkSyncArtifact := mkArtifact "src" "A" "0xAA" [("h1", "src:B")]

/-- Cycle node `B` referencing `A` back. -/
def cycleB : ZkSyncArtifact := mkArtifact "src" "B" "0xBB" [("h2", "src:A")]

/-- A mutual cycle A→B→A. -/
def cycleStore : ArtifactStore := [("src:A", cycleA), ("src:B", cycleB)]

/-- A root that declares itself as its only dependency. -/
def selfRoot : ZkSyncArtifact := mkArtifact "src" "A" "0xAA" [("h1", "src:A")]

/-- Store for the self-referencing root. -/
def selfStore : ArtifactStore := [("src:A", selfRoot)]

/-- Root of the missing-dependency example: A→B, B→D with D absent. -/
def missingRoot : ZkSyncArtifact := mkArtifact "src" "A" "0xAA" [("h1", "src:B")]

/-- Store in which `src:B` declares the absent dependency `src:D`. -/
def missingStore : ArtifactStore :=
  [("src:A", missingRoot), ("src:B", mkArtifact "src" "B" "0xBB" [("h2", "src:D")])]

/-- Root whose only transitive dependency is an abstract contract. -/
def abstractRoot : ZkSyncArtifact :=
  mkArtifact "src" "A" "0xAA" [("h1", "src:B")]

/-- Store whose dependency `src:B` has the abstract sentinel bytecode "0x". -/
def abstractStore : ArtifactStore :=
  [("src:A", abstractRoot), ("src:B", mkArtifact "src" "B" "0x" [])]

/-- Root with two entries under distinct hash keys naming the same identity. -/
def sameIdRoot : ZkSyncArtifact :=
  mkArtifact "src" "A" "0xAA" [("h1", "src:B"), ("h2", "src:B")]

/-- Store for the distinct-keys-same-identity example. -/
def sameIdStore : ArtifactStore :=
  [("src:A", sameIdRoot), ("src:B", mkArtifact "src" "B" "0xBB" [])]

/-- Root with two entries under the *same* hash key naming different
identities (expressible in the ordered-list model of the record). -/
def equalKeyRoot : ZkSyncArtifact :=
  mkArtifact "src" "A" "0xAA" [("h1", "src:B"), ("h1", "src:C")]

/-- Store for the equal-keys-different-identities example. -/
def equalKeyStore : ArtifactStore :=
  [("src:A", equalKeyRoot), ("src:B", mkArtifact "src" "B" "0xBB" []),
    ("src:C", mkArtifact "src" "C" "0xCC" [])]

/-- Apply `g` to the artifact stored under every name, keeping the keys. -/
def mapStore (g : ZkSyncArtifact → ZkSyncArtifact) (store : ArtifactStore) :
    ArtifactStore :=
  store.map (fun p => (p.1, g p.2))

/-- Replace every dependency-hash key of an artifact's `factoryDeps` record
with the empty string, keeping everything else. -/
def eraseKeys (a : ZkSyncArtifact) : ZkSyncArtifact :=
  { a with factoryDeps := a.factoryDeps.map (fun p => ("", p.2)) }

/-- Apply `f` to an artifact's bytecode, keeping everything else. -/
def mapBytecode (f : String → String) (a : ZkSyncArtifact) : ZkSyncArtifact :=
  { a with bytecode := f a.bytecode }

/-- Replace the artifact stored under `name` by `b`, keeping all other
entries (and the store's key set) unchanged. -/
def overrideAt (store : ArtifactStore) (name : String) (b : ZkSyncArtifact) :
    ArtifactStore :=
  store.map (fun p => if p.1 = name then (p.1, b) else p)

/-- An artifact carrying a non-zkSync format tag. -/
def plainSolcArtifact : ZkSyncArtifact :=
  { sourceName := "src", contractName := "E", abi := [], bytecode := "0xEE",
    _format := "hh-sol-artifact-1", factoryDeps := [] }

/-- A store holding one wrong-toolchain artifact. -/
def badFormatStore : ArtifactStore := [("src:E", plainSolcArtifact)]


/-! ### General lemmas -/

theorem optionMap_exceptMap_eq_none {ε α β : Type} (f : α → β)
    (x : Option (Except ε α)) (h : Option.map (Except.map f) x = none) :
    x = none := by
  cases x with
  | none => rfl
  | some v => simp at h

theorem optionMap_exceptMap_eq_error {ε α β : Type} (f : α → β)
    (x : Option (Except ε α)) (e : ε)
    (h : Option.map (Except.map f) x = some (Except.error e)) :
    x = some (Except.error e) := by
  cases x with
  | none => simp at h
  | some v =>
    cases v with
    | error e' => simp [Except.map] at h; simp [h]
    | ok a => simp [Except.map] at h

theorem optionMap_exceptMap_eq_ok {ε α β : Type} (f : α → β)
    (x : Option (Except ε α)) (b : β)
    (h : Option.map (Except.map f) x = some (Except.ok b)) :
    ∃ a, x = some (Except.ok a) ∧ f a = b := by
  cases x with
  | none => simp at h
  | some v =>
    cases v with
    | error e' => simp [Except.map] at h
    | ok a =>
      simp [Except.map] at h
      exact ⟨a, rfl, h⟩

/-- The implementation loop is the spec-side pre-order identity traversal
with each identity replaced by the bytecode its load returns; in particular
both runs agree on fuel exhaustion, on errors, and on the final visited
set. -/
theorem extractFactoryDepsLoop_eq_spec (store : ArtifactStore)
    (fuel : Nat) (deps : List (String × String)) (visited : List String) :
    extractFactoryDepsLoop store fuel deps visited =
      Option.map (Except.map fun p => (p.1.map (bytecodeOf store), p.2))
        (specPreorderLoop store fuel deps visited) := by
  induction fuel, deps, visited using extractFactoryDepsLoop.induct store with
  | case1 fuel visited =>
    simp [extractFactoryDepsLoop, specPreorderLoop, Except.map]
  | case2 fuel k dep rest visited hv ih =>
    simp only [extractFactoryDepsLoop, specPreorderLoop, if_pos hv]
    exact ih
  | case3 fuel k dep rest visited hv e hload =>
    simp [extractFactoryDepsLoop, specPreorderLoop, if_neg hv, hload, Except.map]
  | case4 k dep rest visited hv a hload =>
    simp [extractFactoryDepsLoop, specPreorderLoop, if_neg hv, hload]
  | case5 k dep rest visited hv a hload fuel' hinner ih =>
    have hspec := optionMap_exceptMap_eq_none _ _ (hinner ▸ ih.symm)
    simp [extractFactoryDepsLoop, specPreorderLoop, if_neg hv, hload, hinner, hspec]
  | case6 k dep rest visited hv a hload fuel' e hinner ih =>
    have hspec := optionMap_exceptMap_eq_error _ _ _ (hinner ▸ ih.symm)
    simp [extractFactoryDepsLoop, specPreorderLoop, if_neg hv, hload, hinner, hspec, Except.map]
  | case7 k dep rest visited hv a hload fuel' tdeps v' hinner hrest ih ihr =>
    obtain ⟨⟨ids, v₁⟩, hspec, hmap⟩ := optionMap_exceptMap_eq_ok _ _ _ (hinner ▸ ih.symm)
    obtain ⟨hmap1, hmap2⟩ := Prod.mk.injEq .. ▸ hmap
    subst hmap2
    have hsrest := optionMap_exceptMap_eq_none _ _ (hrest ▸ ihr.symm)
    simp [extractFactoryDepsLoop, specPreorderLoop, if_neg hv, hload, hinner, hspec, hrest, hsrest]
  | case8 k dep rest visited hv a hload fuel' tdeps v' hinner e hrest ih ihr =>
    obtain ⟨⟨ids, v₁⟩, hspec, hmap⟩ := optionMap_exceptMap_eq_ok _ _ _ (hinner ▸ ih.symm)
    obtain ⟨hmap1, hmap2⟩ := Prod.mk.injEq .. ▸ hmap
    subst hmap2
    have hsrest := optionMap_exceptMap_eq_error _ _ _ (hrest ▸ ihr.symm)
    simp [extractFactoryDepsLoop, specPreorderLoop, if_neg hv, hload, hinner, hspec, hrest,
      hsrest, Except.map]
  | case9 k dep rest visited hv a hload fuel' tdeps v' hinner rdeps v'' hrest ih ihr =>
    obtain ⟨⟨ids, v₁⟩, hspec, hmap⟩ := optionMap_exceptMap_eq_ok _ _ _ (hinner ▸ ih.symm)
    obtain ⟨hmap1, hmap2⟩ := Prod.mk.injEq .. ▸ hmap
    subst hmap2
    obtain ⟨⟨rids, v₂⟩, hsrest, hrmap⟩ := optionMap_exceptMap_eq_ok _ _ _ (hrest ▸ ihr.symm)
    obtain ⟨hrmap1, hrmap2⟩ := Prod.mk.injEq .. ▸ hrmap
    subst hrmap2
    have hb : bytecodeOf store dep = a.bytecode := by
      simp [bytecodeOf, hload]
    simp [extractFactoryDepsLoop, specPreorderLoop, if_neg hv, hload, hinner, hspec, hrest,
      hsrest, Except.map, ← hmap1, ← hrmap1, hb]

theorem specPreorderLoop_props (store : ArtifactStore)
    (fuel : Nat) (deps : List (String × String)) (visited : List String) :
    ∀ ids v', specPreorderLoop store fuel deps visited = some (Except.ok (ids, v')) →
      ids.Nodup ∧ (∀ s ∈ ids, s ∉ visited) ∧
        (∀ x, x ∈ v' ↔ x ∈ ids ∨ x ∈ visited) ∧
        (∀ s ∈ ids, ∃ d, loadArtifact store s = Except.ok d) := by
  induction fuel, deps, visited using specPreorderLoop.induct store with
  | case1 fuel visited =>
    intro ids v' h
    simp only [specPreorderLoop] at h
    obtain ⟨h1, h2⟩ : ([] : List String) = ids ∧ visited = v' := by
      simpa using h
    subst h1; subst h2
    simp
  | case2 fuel k dep rest visited hv ih =>
    intro ids v' h
    simp only [specPreorderLoop, if_pos hv] at h
    exact ih ids v' h
  | case3 fuel k dep rest visited hv e hload =>
    intro ids v' h
    simp [specPreorderLoop, if_neg hv, hload] at h
  | case4 k dep rest visited hv a hload =>
    intro ids v' h
    simp [specPreorderLoop, if_neg hv, hload] at h
  | case5 k dep rest visited hv a hload fuel' hinner ih =>
    intro ids v' h
    simp [specPreorderLoop, if_neg hv, hload, hinner] at h
  | case6 k dep rest visited hv a hload fuel' e hinner ih =>
    intro ids v' h
    simp [specPreorderLoop, if_neg hv, hload, hinner] at h
  | case7 k dep rest visited hv a hload fuel' tIds v₁ hinner hrest ih ihr =>
    intro ids v' h
    simp [specPreorderLoop, if_neg hv, hload, hinner, hrest] at h
  | case8 k dep rest visited hv a hload fuel' tIds v₁ hinner e hrest ih ihr =>
    intro ids v' h
    simp [specPreorderLoop, if_neg hv, hload, hinner, hrest] at h
  | case9 k dep rest visited hv a hload fuel' tIds v₁ hinner rIds v₂ hrest ih ihr =>
    intro ids v' h
    simp only [specPreorderLoop, if_neg hv, hload, hinner, hrest] at h
    obtain ⟨h1, h2⟩ : dep :: (tIds ++ rIds) = ids ∧ v₂ = v' := by
      simpa using h
    subst h1; subst h2
    obtain ⟨tnodup, tfresh, tchar, tload⟩ := ih tIds v₁ hinner
    obtain ⟨rnodup, rfresh, rchar, rload⟩ := ihr rIds v₂ hrest
    have hdepv₁ : dep ∈ v₁ := (tchar dep).mpr (Or.inr (List.mem_cons_self dep visited))
    have hsubv₁ : ∀ x ∈ visited, x ∈ v₁ := fun x hx =>
      (tchar x).mpr (Or.inr (List.mem_cons_of_mem dep hx))
    have htv₁ : ∀ x ∈ tIds, x ∈ v₁ := fun x hx => (tchar x).mpr (Or.inl hx)
    refine ⟨?_, ?_, ?_, ?_⟩
    · refine List.nodup_cons.mpr ⟨?_, ?_⟩
      · intro hmem
        rcases List.mem_append.mp hmem with hmem | hmem
        · exact tfresh dep hmem (List.mem_cons_self dep visited)
        · exact rfresh dep hmem hdepv₁
      · refine List.Nodup.append tnodup rnodup ?_
        intro x hxt hxr
        exact rfresh x hxr (htv₁ x hxt)
    · intro s hs
      rcases List.mem_cons.mp hs with rfl | hs
      · exact hv
      · rcases List.mem_append.mp hs with hs | hs
        · intro hvis
          exact tfresh s hs (List.mem_cons_of_mem dep hvis)
        · intro hvis
          exact rfresh s hs (hsubv₁ s hvis)
    · intro x
      constructor
      · intro hx
        rcases (rchar x).mp hx with hx | hx
        · exact Or.inl (List.mem_cons_of_mem dep (List.mem_append.mpr (Or.inr hx)))
        · rcases (tchar x).mp hx with hx | hx
          · exact Or.inl (List.mem_cons_of_mem dep (List.mem_append.mpr (Or.inl hx)))
          · rcases List.mem_cons.mp hx with rfl | hx
            · exact Or.inl (List.mem_cons_self x _)
            · exact Or.inr hx
      · intro hx
        rcases hx with hx | hx
        · rcases List.mem_cons.mp hx with rfl | hx
          · exact (rchar x).mpr (Or.inr hdepv₁)
          · rcases List.mem_append.mp hx with hx | hx
            · exact (rchar x).mpr (Or.inr (htv₁ x hx))
            · exact (rchar x).mpr (Or.inl hx)
        · exact (rchar x).mpr (Or.inr (hsubv₁ x hx))
    · intro s hs
      rcases List.mem_cons.mp hs with rfl | hs
      · exact ⟨a, hload⟩
      · rcases List.mem_append.mp hs with hs | hs
        · exact tload s hs
        · exact rload s hs

/-- The distinct artifact names present in the store. -/
def storeKeys (store : ArtifactStore) : List String := (store.map Prod.fst).dedup

/-- The number of distinct store keys not yet visited: the measure that
shrinks at every graph recursion. -/
def unvisitedCount (store : ArtifactStore) (visited : List String) : Nat :=
  ((storeKeys store).filter (fun s => decide (s ∉ visited))).length

theorem lookup_mem_keys {β : Type} {store : List (String × β)} {s : String}
    {a : β} (h : store.lookup s = some a) : s ∈ store.map Prod.fst := by
  induction store with
  | nil => simp [List.lookup] at h
  | cons p t ih =>
    rw [List.lookup] at h
    by_cases hk : s = p.1
    · simp [hk]
    · have hb : (s == p.1) = false := beq_false_of_ne hk
      rw [hb] at h
      simp [ih h]

theorem loadArtifact_ok_mem_keys {store : ArtifactStore} {s : String}
    {a : ZkSyncArtifact} (h : loadArtifact store s = Except.ok a) :
    s ∈ storeKeys store := by
  unfold loadArtifact readArtifact at h
  cases hl : store.lookup s with
  | none => rw [hl] at h; simp at h
  | some b => exact List.mem_dedup.mpr (lookup_mem_keys hl)

theorem unvisitedCount_mono {store : ArtifactStore} {v₁ v₂ : List String}
    (h : ∀ x ∈ v₁, x ∈ v₂) : unvisitedCount store v₂ ≤ unvisitedCount store v₁ := by
  unfold unvisitedCount
  rw [← List.countP_eq_length_filter, ← List.countP_eq_length_filter]
  apply List.countP_mono_left
  intro x _ hx
  simp only [decide_eq_true_eq] at hx ⊢
  intro hmem
  exact hx (h x hmem)

theorem unvisitedCount_lt {store : ArtifactStore} {dep : String}
    {visited : List String} (hk : dep ∈ storeKeys store) (hv : dep ∉ visited) :
    unvisitedCount store (dep :: visited) < unvisitedCount store visited := by
  unfold unvisitedCount
  have hfilter :
      (storeKeys store).filter (fun s => decide (s ∉ dep :: visited)) =
        ((storeKeys store).filter (fun s => decide (s ∉ visited))).filter
          (fun s => decide (s ≠ dep)) := by
    rw [List.filter_filter]
    apply List.filter_congr
    intro x _
    simp [List.mem_cons, not_or, Bool.decide_and]
  rw [hfilter]
  apply List.length_filter_lt_length_iff_exists.mpr
  exact ⟨dep, List.mem_filter.mpr ⟨hk, by simp [hv]⟩, by simp⟩

/-- Fuel sufficiency: whenever the number of unvisited store keys is at most
the fuel, the traversal does not run out of fuel. -/
theorem specPreorderLoop_ne_none (store : ArtifactStore)
    (fuel : Nat) (deps : List (String × String)) (visited : List String) :
    unvisitedCount store visited ≤ fuel →
      specPreorderLoop store fuel deps visited ≠ none := by
  induction fuel, deps, visited using specPreorderLoop.induct store with
  | case1 fuel visited => intro _; simp [specPreorderLoop]
  | case2 fuel k dep rest visited hv ih =>
    intro h
    simpa only [specPreorderLoop, if_pos hv] using ih h
  | case3 fuel k dep rest visited hv e hload =>
    intro _; simp [specPreorderLoop, if_neg hv, hload]
  | case4 k dep rest visited hv a hload =>
    intro h
    exfalso
    have hlt := unvisitedCount_lt (loadArtifact_ok_mem_keys hload) hv
    omega
  | case5 k dep rest visited hv a hload fuel' hinner ih =>
    intro h
    exfalso
    have hlt := unvisitedCount_lt (loadArtifact_ok_mem_keys hload) hv
    exact ih (by omega) hinner
  | case6 k dep rest visited hv a hload fuel' e hinner ih =>
    intro _; simp [specPreorderLoop, if_neg hv, hload, hinner]
  | case7 k dep rest visited hv a hload fuel' tIds v₁ hinner hrest ih ihr =>
    intro h
    exfalso
    obtain ⟨_, _, tchar, _⟩ :=
      specPreorderLoop_props store fuel' a.factoryDeps (dep :: visited) tIds v₁ hinner
    have hsub : ∀ x ∈ visited, x ∈ v₁ := fun x hx =>
      (tchar x).mpr (Or.inr (List.mem_cons_of_mem dep hx))
    have hle := @unvisitedCount_mono store _ _ hsub
    exact ihr (le_trans hle h) hrest
  | case8 k dep rest visited hv a hload fuel' tIds v₁ hinner e hrest ih ihr =>
    intro _; simp [specPreorderLoop, if_neg hv, hload, hinner, hrest]
  | case9 k dep rest visited hv a hload fuel' tIds v₁ hinner rIds v₂ hrest ih ihr =>
    intro _; simp [specPreorderLoop, if_neg hv, hload, hinner, hrest]

/-- The default fuel is always sufficient: `extractFactoryDeps` never runs
out of fuel, i.e. the original unbounded recursion terminates on every
finite artifact graph. -/
theorem extractFactoryDeps_total (store : ArtifactStore)
    (artifact : ZkSyncArtifact) :
    ∃ r, extractFactoryDeps store artifact = some r := by
  have hcount : unvisitedCount store [fqn artifact] ≤ defaultFuel store := by
    have h1 : unvisitedCount store [fqn artifact] ≤ (storeKeys store).length :=
      List.length_filter_le _ _
    have h2 : (storeKeys store).length ≤ (store.map Prod.fst).length :=
      (List.dedup_sublist _).length_le
    simp only [List.length_map] at h2
    unfold defaultFuel
    omega
  have hspec := specPreorderLoop_ne_none store (defaultFuel store)
    artifact.factoryDeps [fqn artifact] hcount
  have heq := extractFactoryDepsLoop_eq_spec store (defaultFuel store)
    artifact.factoryDeps [fqn artifact]
  unfold extractFactoryDeps extractFactoryDepsRecursive
  cases hs : specPreorderLoop store (defaultFuel store) artifact.factoryDeps
      [fqn artifact] with
  | none => exact absurd hs hspec
  | some v =>
    rw [hs] at heq
    cases v with
    | error e => rw [heq]; exact ⟨Except.error e, by simp [Except.map]⟩
    | ok p => rw [heq]; exact ⟨Except.ok (p.1.map (bytecodeOf store)), by simp [Except.map]⟩

theorem lookup_map {β γ : Type} (g : β → γ) (store : List (String × β)) (s : String) :
    List.lookup s (store.map (fun p => (p.1, g p.2))) = (store.lookup s).map g := by
  induction store with
  | nil => simp [List.lookup]
  | cons p t ih =>
    rw [List.map_cons, List.lookup, List.lookup]
    cases hb : s == p.1 with
    | true => simp
    | false => simpa using ih

theorem loadArtifact_mapStore (store : ArtifactStore)
    (g : ZkSyncArtifact → ZkSyncArtifact)
    (hfmt : ∀ a, (g a)._format = a._format) (s : String) :
    loadArtifact (mapStore g store) s =
      match loadArtifact store s with
      | Except.error e => Except.error e
      | Except.ok a => Except.ok (g a) := by
  unfold loadArtifact readArtifact mapStore
  rw [lookup_map]
  cases store.lookup s with
  | none => simp
  | some a =>
    simp only [Option.map_some']
    rw [hfmt a]
    by_cases hf : a._format ≠ ZKSOLC_ARTIFACT_FORMAT_VERSION ∧
        a._format ≠ ZKVYPER_ARTIFACT_FORMAT_VERSION
    · simp [if_pos hf]
    · simp [if_neg hf]

/-- The spec traversal consults only the dependency identities (the values of
`factoryDeps`), never the hash keys, and only the `_format` tags of loaded
artifacts: transforming every stored artifact by a map `g` that preserves
dependency values and format tags, and replacing the dependency list by one
with equal values, leaves the traversal unchanged. -/
theorem specPreorderLoop_congr (store : ArtifactStore)
    (g : ZkSyncArtifact → ZkSyncArtifact)
    (hdeps : ∀ a, (g a).factoryDeps.map Prod.snd = a.factoryDeps.map Prod.snd)
    (hfmt : ∀ a, (g a)._format = a._format) :
    ∀ fuel deps visited, ∀ deps₂, deps.map Prod.snd = deps₂.map Prod.snd →
      specPreorderLoop (mapStore g store) fuel deps₂ visited =
        specPreorderLoop store fuel deps visited := by
  intro fuel deps visited
  induction fuel, deps, visited using specPreorderLoop.induct store with
  | case1 fuel visited =>
    intro deps₂ hmap
    cases deps₂ with
    | nil => simp [specPreorderLoop]
    | cons h t => simp at hmap
  | case2 fuel k dep rest visited hv ih =>
    intro deps₂ hmap
    cases deps₂ with
    | nil => simp at hmap
    | cons h₂ rest₂ =>
      obtain ⟨k₂, d₂⟩ := h₂
      simp only [List.map_cons, List.cons.injEq] at hmap
      obtain ⟨rfl, hrest⟩ := hmap
      simp only [specPreorderLoop, if_pos hv]
      exact ih rest₂ hrest
  | case3 fuel k dep rest visited hv e hload =>
    intro deps₂ hmap
    cases deps₂ with
    | nil => simp at hmap
    | cons h₂ rest₂ =>
      obtain ⟨k₂, d₂⟩ := h₂
      simp only [List.map_cons, List.cons.injEq] at hmap
      obtain ⟨rfl, hrest⟩ := hmap
      have hloadm : loadArtifact (mapStore g store) dep = Except.error e := by
        rw [loadArtifact_mapStore store g hfmt dep, hload]
      simp [specPreorderLoop, if_neg hv, hload, hloadm]
  | case4 k dep rest visited hv a hload =>
    intro deps₂ hmap
    cases deps₂ with
    | nil => simp at hmap
    | cons h₂ rest₂ =>
      obtain ⟨k₂, d₂⟩ := h₂
      simp only [List.map_cons, List.cons.injEq] at hmap
      obtain ⟨rfl, hrest⟩ := hmap
      have hloadm : loadArtifact (mapStore g store) dep = Except.ok (g a) := by
        rw [loadArtifact_mapStore store g hfmt dep, hload]
      simp [specPreorderLoop, if_neg hv, hload, hloadm]
  | case5 k dep rest visited hv a hload fuel' hinner ih =>
    intro deps₂ hmap
    cases deps₂ with
    | nil => simp at hmap
    | cons h₂ rest₂ =>
      obtain ⟨k₂, d₂⟩ := h₂
      simp only [List.map_cons, List.cons.injEq] at hmap
      obtain ⟨rfl, hrest⟩ := hmap
      have hloadm : loadArtifact (mapStore g store) dep = Except.ok (g a) := by
        rw [loadArtifact_mapStore store g hfmt dep, hload]
      have hinner' : specPreorderLoop (mapStore g store) fuel' (g a).factoryDeps
          (dep :: visited) = none := by
        rw [ih (g a).factoryDeps (hdeps a).symm]; exact hinner
      simp [specPreorderLoop, if_neg hv, hload, hloadm, hinner, hinner']
  | case6 k dep rest visited hv a hload fuel' e hinner ih =>
    intro deps₂ hmap
    cases deps₂ with
    | nil => simp at hmap
    | cons h₂ rest₂ =>
      obtain ⟨k₂, d₂⟩ := h₂
      simp only [List.map_cons, List.cons.injEq] at hmap
      obtain ⟨rfl, hrest⟩ := hmap
      have hloadm : loadArtifact (mapStore g store) dep = Except.ok (g a) := by
        rw [loadArtifact_mapStore store g hfmt dep, hload]
      have hinner' : specPreorderLoop (mapStore g store) fuel' (g a).factoryDeps
          (dep :: visited) = some (Except.error e) := by
        rw [ih (g a).factoryDeps (hdeps a).symm]; exact hinner
      simp [specPreorderLoop, if_neg hv, hload, hloadm, hinner, hinner']
  | case7 k dep rest visited hv a hload fuel' tIds v₁ hinner hrest ih ihr =>
    intro deps₂ hmap
    cases deps₂ with
    | nil => simp at hmap
    | cons h₂ rest₂ =>
      obtain ⟨k₂, d₂⟩ := h₂
      simp only [List.map_cons, List.cons.injEq] at hmap
      obtain ⟨rfl, hrest₂⟩ := hmap
      have hloadm : loadArtifact (mapStore g store) dep = Except.ok (g a) := by
        rw [loadArtifact_mapStore store g hfmt dep, hload]
      have hinner' : specPreorderLoop (mapStore g store) fuel' (g a).factoryDeps
          (dep :: visited) = some (Except.ok (tIds, v₁)) := by
        rw [ih (g a).factoryDeps (hdeps a).symm]; exact hinner
      have hrest' : specPreorderLoop (mapStore g store) (fuel' + 1) rest₂ v₁ = none := by
        rw [ihr rest₂ hrest₂]; exact hrest
      simp [specPreorderLoop, if_neg hv, hload, hloadm, hinner, hinner', hrest, hrest']
  | case8 k dep rest visited hv a hload fuel' tIds v₁ hinner e hrest ih ihr =>
    intro deps₂ hmap
    cases deps₂ with
    | nil => simp at hmap
    | cons h₂ rest₂ =>
      obtain ⟨k₂, d₂⟩ := h₂
      simp only [List.map_cons, List.cons.injEq] at hmap
      obtain ⟨rfl, hrest₂⟩ := hmap
      have hloadm : loadArtifact (mapStore g store) dep = Except.ok (g a) := by
        rw [loadArtifact_mapStore store g hfmt dep, hload]
      have hinner' : specPreorderLoop (mapStore g store) fuel' (g a).factoryDeps
          (dep :: visited) = some (Except.ok (tIds, v₁)) := by
        rw [ih (g a).factoryDeps (hdeps a).symm]; exact hinner
      have hrest' : specPreorderLoop (mapStore g store) (fuel' + 1) rest₂ v₁ =
          some (Except.error e) := by
        rw [ihr rest₂ hrest₂]; exact hrest
      simp [specPreorderLoop, if_neg hv, hload, hloadm, hinner, hinner', hrest, hrest']
  | case9 k dep rest visited hv a hload fuel' tIds v₁ hinner rIds v₂ hrest ih ihr =>
    intro deps₂ hmap
    cases deps₂ with
    | nil => simp at hmap
    | cons h₂ rest₂ =>
      obtain ⟨k₂, d₂⟩ := h₂
      simp only [List.map_cons, List.cons.injEq] at hmap
      obtain ⟨rfl, hrest₂⟩ := hmap
      have hloadm : loadArtifact (mapStore g store) dep = Except.ok (g a) := by
        rw [loadArtifact_mapStore store g hfmt dep, hload]
      have hinner' : specPreorderLoop (mapStore g store) fuel' (g a).factoryDeps
          (dep :: visited) = some (Except.ok (tIds, v₁)) := by
        rw [ih (g a).factoryDeps (hdeps a).symm]; exact hinner
      have hrest' : specPreorderLoop (mapStore g store) (fuel' + 1) rest₂ v₁ =
          some (Except.ok (rIds, v₂)) := by
        rw [ihr rest₂ hrest₂]; exact hrest
      simp [specPreorderLoop, if_neg hv, hload, hloadm, hinner, hinner', hrest, hrest']

/-- The traversal consults the store only at identities outside the current
visited set: two stores that agree on every not-yet-visited name produce
identical spec traversals. -/
theorem specPreorderLoop_agree (store store' : ArtifactStore) :
    ∀ fuel deps visited,
      (∀ s, s ∉ visited → store.lookup s = store'.lookup s) →
      specPreorderLoop store' fuel deps visited =
        specPreorderLoop store fuel deps visited := by
  intro fuel deps visited
  induction fuel, deps, visited using specPreorderLoop.induct store with
  | case1 fuel visited => intro _; simp [specPreorderLoop]
  | case2 fuel k dep rest visited hv ih =>
    intro h
    simp only [specPreorderLoop, if_pos hv]
    exact ih h
  | case3 fuel k dep rest visited hv e hload =>
    intro h
    have hload' : loadArtifact store' dep = Except.error e := by
      unfold loadArtifact readArtifact at hload ⊢
      rw [← h dep hv]; exact hload
    simp [specPreorderLoop, if_neg hv, hload, hload']
  | case4 k dep rest visited hv a hload =>
    intro h
    have hload' : loadArtifact store' dep = Except.ok a := by
      unfold loadArtifact readArtifact at hload ⊢
      rw [← h dep hv]; exact hload
    simp [specPreorderLoop, if_neg hv, hload, hload']
  | case5 k dep rest visited hv a hload fuel' hinner ih =>
    intro h
    have h' : ∀ s, s ∉ dep :: visited → store.lookup s = store'.lookup s :=
      fun s hs => h s (fun hmem => hs (List.mem_cons_of_mem dep hmem))
    have hload' : loadArtifact store' dep = Except.ok a := by
      unfold loadArtifact readArtifact at hload ⊢
      rw [← h dep hv]; exact hload
    have hinner' := (ih h') ▸ hinner
    simp [specPreorderLoop, if_neg hv, hload, hload', hinner, hinner']
  | case6 k dep rest visited hv a hload fuel' e hinner ih =>
    intro h
    have h' : ∀ s, s ∉ dep :: visited → store.lookup s = store'.lookup s :=
      fun s hs => h s (fun hmem => hs (List.mem_cons_of_mem dep hmem))
    have hload' : loadArtifact store' dep = Except.ok a := by
      unfold loadArtifact readArtifact at hload ⊢
      rw [← h dep hv]; exact hload
    have hinner' := (ih h') ▸ hinner
    simp [specPreorderLoop, if_neg hv, hload, hload', hinner, hinner']
  | case7 k dep rest visited hv a hload fuel' tIds v₁ hinner hrest ih ihr =>
    intro h
    have h' : ∀ s, s ∉ dep :: visited → store.lookup s = store'.lookup s :=
      fun s hs => h s (fun hmem => hs (List.mem_cons_of_mem dep hmem))
    have hload' : loadArtifact store' dep = Except.ok a := by
      unfold loadArtifact readArtifact at hload ⊢
      rw [← h dep hv]; exact hload
    have hinner' := (ih h') ▸ hinner
    obtain ⟨_, _, tchar, _⟩ :=
      specPreorderLoop_props store fuel' a.factoryDeps (dep :: visited) tIds v₁ hinner
    have hsub : ∀ s, s ∉ v₁ → store.lookup s = store'.lookup s := fun s hs =>
      h s (fun hmem =>
        hs ((tchar s).mpr (Or.inr (List.mem_cons_of_mem dep hmem))))
    have hrest' := (ihr hsub) ▸ hrest
    simp [specPreorderLoop, if_neg hv, hload, hload', hinner, hinner', hrest, hrest']
  | case8 k dep rest visited hv a hload fuel' tIds v₁ hinner e hrest ih ihr =>
    intro h
    have h' : ∀ s, s ∉ dep :: visited → store.lookup s = store'.lookup s :=
      fun s hs => h s (fun hmem => hs (List.mem_cons_of_mem dep hmem))
    have hload' : loadArtifact store' dep = Except.ok a := by
      unfold loadArtifact readArtifact at hload ⊢
      rw [← h dep hv]; exact hload
    have hinner' := (ih h') ▸ hinner
    obtain ⟨_, _, tchar, _⟩ :=
      specPreorderLoop_props store fuel' a.factoryDeps (dep :: visited) tIds v₁ hinner
    have hsub : ∀ s, s ∉ v₁ → store.lookup s = store'.lookup s := fun s hs =>
      h s (fun hmem =>
        hs ((tchar s).mpr (Or.inr (List.mem_cons_of_mem dep hmem))))
    have hrest' := (ihr hsub) ▸ hrest
    simp [specPreorderLoop, if_neg hv, hload, hload', hinner, hinner', hrest, hrest']
  | case9 k dep rest visited hv a hload fuel' tIds v₁ hinner rIds v₂ hrest ih ihr =>
    intro h
    have h' : ∀ s, s ∉ dep :: visited → store.lookup s = store'.lookup s :=
      fun s hs => h s (fun hmem => hs (List.mem_cons_of_mem dep hmem))
    have hload' : loadArtifact store' dep = Except.ok a := by
      unfold loadArtifact readArtifact at hload ⊢
      rw [← h dep hv]; exact hload
    have hinner' := (ih h') ▸ hinner
    obtain ⟨_, _, tchar, _⟩ :=
      specPreorderLoop_props store fuel' a.factoryDeps (dep :: visited) tIds v₁ hinner
    have hsub : ∀ s, s ∉ v₁ → store.lookup s = store'.lookup s := fun s hs =>
      h s (fun hmem =>
        hs ((tchar s).mpr (Or.inr (List.mem_cons_of_mem dep hmem))))
    have hrest' := (ihr hsub) ▸ hrest
    simp [specPreorderLoop, if_neg hv, hload, hload', hinner, hinner', hrest, hrest']

/-- Every error returned by the spec traversal is an error the loader
returned for some identity, propagated unchanged. -/
theorem specPreorderLoop_error_origin (store : ArtifactStore) :
    ∀ fuel deps visited e,
      specPreorderLoop store fuel deps visited = some (Except.error e) →
      ∃ s, loadArtifact store s = Except.error e := by
  intro fuel deps visited
  induction fuel, deps, visited using specPreorderLoop.induct store with
  | case1 fuel visited => intro e h; simp [specPreorderLoop] at h
  | case2 fuel k dep rest visited hv ih =>
    intro e h
    simp only [specPreorderLoop, if_pos hv] at h
    exact ih e h
  | case3 fuel k dep rest visited hv e hload =>
    intro e' h
    simp only [specPreorderLoop, if_neg hv, hload] at h
    obtain rfl : e = e' := by simpa using h
    exact ⟨dep, hload⟩
  | case4 k dep rest visited hv a hload =>
    intro e h
    simp [specPreorderLoop, if_neg hv, hload] at h
  | case5 k dep rest visited hv a hload fuel' hinner ih =>
    intro e h
    simp [specPreorderLoop, if_neg hv, hload, hinner] at h
  | case6 k dep rest visited hv a hload fuel' e hinner ih =>
    intro e' h
    simp only [specPreorderLoop, if_neg hv, hload, hinner] at h
    obtain rfl : e = e' := by simpa using h
    exact ih e hinner
  | case7 k dep rest visited hv a hload fuel' tIds v₁ hinner hrest ih ihr =>
    intro e h
    simp [specPreorderLoop, if_neg hv, hload, hinner, hrest] at h
  | case8 k dep rest visited hv a hload fuel' tIds v₁ hinner e hrest ih ihr =>
    intro e' h
    simp only [specPreorderLoop, if_neg hv, hload, hinner, hrest] at h
    obtain rfl : e = e' := by simpa using h
    exact ihr e hrest
  | case9 k dep rest visited hv a hload fuel' tIds v₁ hinner rIds v₂ hrest ih ihr =>
    intro e h
    simp [specPreorderLoop, if_neg hv, hload, hinner, hrest] at h

/-- A load error always names the artifact it was raised for. -/
theorem loadArtifact_error_name {store : ArtifactStore} {s : String}
    {e : LoadError} (h : loadArtifact store s = Except.error e) :
    e.artifactName = s := by
  unfold loadArtifact readArtifact at h
  cases hl : store.lookup s with
  | none =>
    rw [hl] at h
    obtain rfl : LoadError.notFound s = e := by simpa using h
    rfl
  | some a =>
    rw [hl] at h
    dsimp only at h
    by_cases hf : a._format ≠ ZKSOLC_ARTIFACT_FORMAT_VERSION ∧
        a._format ≠ ZKVYPER_ARTIFACT_FORMAT_VERSION
    · rw [if_pos hf] at h
      obtain rfl : LoadError.notCompiledByExpectedToolchain s = e := by simpa using h
      rfl
    · rw [if_neg hf] at h
      simp at h

/-- Transforming every stored artifact (and the root) by a map `g` that
preserves dependency values, format tags and names, and maps bytecodes
through `f`, maps the resolver output through `f` elementwise. -/
theorem extractFactoryDeps_mapStore (store : ArtifactStore)
    (g : ZkSyncArtifact → ZkSyncArtifact) (f : String → String)
    (hdeps : ∀ a, (g a).factoryDeps.map Prod.snd = a.factoryDeps.map Prod.snd)
    (hfmt : ∀ a, (g a)._format = a._format)
    (hbyte : ∀ a, (g a).bytecode = f a.bytecode)
    (hname : ∀ a, fqn (g a) = fqn a)
    (artifact : ZkSyncArtifact) :
    extractFactoryDeps (mapStore g store) (g artifact) =
      Option.map (Except.map (List.map f)) (extractFactoryDeps store artifact) := by
  have hfuel : defaultFuel (mapStore g store) = defaultFuel store := by
    simp [defaultFuel, mapStore]
  unfold extractFactoryDeps extractFactoryDepsRecursive
  rw [hfuel, hname]
  rw [extractFactoryDepsLoop_eq_spec (mapStore g store),
    extractFactoryDepsLoop_eq_spec store]
  rw [specPreorderLoop_congr store g hdeps hfmt (defaultFuel store)
    artifact.factoryDeps [fqn artifact] (g artifact).factoryDeps (hdeps artifact).symm]
  cases hs : specPreorderLoop store (defaultFuel store) artifact.factoryDeps
      [fqn artifact] with
  | none => simp
  | some v =>
    cases v with
    | error e => simp [Except.map]
    | ok p =>
      obtain ⟨ids, v'⟩ := p
      obtain ⟨_, _, _, hloads⟩ :=
        specPreorderLoop_props store (defaultFuel store) artifact.factoryDeps
          [fqn artifact] ids v' hs
      simp only [Option.map_some', Except.map, List.map_map]
      congr 2
      apply List.map_congr_left
      intro s hsmem
      obtain ⟨d, hd⟩ := hloads s hsmem
      have hmapped : loadArtifact (mapStore g store) s = Except.ok (g d) := by
        rw [loadArtifact_mapStore store g hfmt s, hd]
      simp [bytecodeOf, hd, hmapped, hbyte d, Function.comp]

theorem extractFactoryDeps_ok_spec {store : ArtifactStore} {a : ZkSyncArtifact}
    {bs : List String} (h : extractFactoryDeps store a = some (Except.ok bs)) :
    ∃ ids v', specPreorderLoop store (defaultFuel store) a.factoryDeps [fqn a] =
        some (Except.ok (ids, v')) ∧ bs = ids.map (bytecodeOf store) := by
  unfold extractFactoryDeps extractFactoryDepsRecursive at h
  rw [extractFactoryDepsLoop_eq_spec] at h
  cases hs : specPreorderLoop store (defaultFuel store) a.factoryDeps [fqn a] with
  | none => rw [hs] at h; simp at h
  | some v =>
    rw [hs] at h
    cases v with
    | error e => simp [Except.map] at h
    | ok p =>
      obtain ⟨ids, v'⟩ := p
      simp [Except.map] at h
      exact ⟨ids, v', rfl, h.symm⟩

theorem extractFactoryDeps_error_spec {store : ArtifactStore}
    {a : ZkSyncArtifact} {e : LoadError}
    (h : extractFactoryDeps store a = some (Except.error e)) :
    specPreorderLoop store (defaultFuel store) a.factoryDeps [fqn a] =
      some (Except.error e) := by
  unfold extractFactoryDeps extractFactoryDepsRecursive at h
  rw [extractFactoryDepsLoop_eq_spec] at h
  cases hs : specPreorderLoop store (defaultFuel store) a.factoryDeps [fqn a] with
  | none => rw [hs] at h; simp at h
  | some v =>
    rw [hs] at h
    cases v with
    | error e' =>
      obtain rfl : e' = e := by simpa [Except.map] using h
      rfl
    | ok p => simp [Except.map] at h

/-- C1: `extractFactoryDeps` returns the dependency bytecodes in pre-order
depth-first first-discovery order (it equals the spec-side pre-order identity
traversal with each identity replaced by its loaded bytecode; as a pure
function of the store and root it is deterministic, so re-running on the
same graph yields the identical sequence); on the diamond graph A→{B,C},
B→{D}, C→{D}, D→{} the output is exactly [B.bytecode, D.bytecode, C.bytecode],
the bytecodes of the pre-order identity sequence [src:B, src:D, src:C]. -/
theorem extractFactoryDeps_preorder_dfs :
    (∀ (store : ArtifactStore) (a : ZkSyncArtifact),
      extractFactoryDeps store a =
        Option.map (Except.map (List.map (bytecodeOf store))) (specPreorder store a)) ∧
    extractFactoryDeps diamondStore artifactA =
      some (Except.ok ["0xBB", "0xDD", "0xCC"]) ∧
    specPreorder diamondStore artifactA =
      some (Except.ok ["src:B", "src:D", "src:C"]) := by
  refine ⟨?_, ?_, ?_⟩
  · intro store a
    unfold extractFactoryDeps extractFactoryDepsRecursive specPreorder
    rw [extractFactoryDepsLoop_eq_spec]
    cases hs : specPreorderLoop store (defaultFuel store) a.factoryDeps [fqn a] with
    | none => simp
    | some v =>
      cases v with
      | error e => simp [Except.map]
      | ok p =>
        obtain ⟨ids, v'⟩ := p
        simp [Except.map]
  · simp [extractFactoryDeps, extractFactoryDepsRecursive, extractFactoryDepsLoop,
      defaultFuel, loadArtifact, readArtifact, fqn, diamondStore, artifactA,
      artifactB, artifactC, artifactD, mkArtifact, List.lookup]
  · simp [specPreorder, specPreorderLoop, defaultFuel, loadArtifact, readArtifact,
      fqn, diamondStore, artifactA, artifactB, artifactC, artifactD, mkArtifact,
      List.lookup]

/-- C2: every successful output is the image of a duplicate-free list of
fully-qualified identities, each loaded exactly once, so the bytecode of each
distinct `sourceName:contractName` identity appears at most once; in the
diamond graph D's bytecode appears exactly once. -/
theorem extractFactoryDeps_no_duplicate_identities :
    (∀ (store : ArtifactStore) (a : ZkSyncArtifact) (bs : List String),
      extractFactoryDeps store a = some (Except.ok bs) →
      ∃ ids : List String, ids.Nodup ∧ bs = ids.map (bytecodeOf store) ∧
        ∀ s ∈ ids, ∃ d, loadArtifact store s = Except.ok d ∧
          d.bytecode = bytecodeOf store s) ∧
    extractFactoryDeps diamondStore artifactA =
      some (Except.ok ["0xBB", "0xDD", "0xCC"]) ∧
    (["0xBB", "0xDD", "0xCC"] : List String).count "0xDD" = 1 := by
  refine ⟨?_, ?_, by decide⟩
  · intro store a bs h
    obtain ⟨ids, v', hs, hbs⟩ := extractFactoryDeps_ok_spec h
    obtain ⟨hnodup, _, _, hloads⟩ :=
      specPreorderLoop_props store (defaultFuel store) a.factoryDeps [fqn a] ids v' hs
    refine ⟨ids, hnodup, hbs, ?_⟩
    intro s hsmem
    obtain ⟨d, hd⟩ := hloads s hsmem
    exact ⟨d, hd, by simp [bytecodeOf, hd]⟩
  · simp [extractFactoryDeps, extractFactoryDepsRecursive, extractFactoryDepsLoop,
      defaultFuel, loadArtifact, readArtifact, fqn, diamondStore, artifactA,
      artifactB, artifactC, artifactD, mkArtifact, List.lookup]

/-- C2 witness: on the diamond graph the hypothesis of the universal part of
C2 holds and yields a duplicate-free identity decomposition of the output. -/
theorem extractFactoryDeps_no_duplicate_identities_witness :
    extractFactoryDeps diamondStore artifactA =
      some (Except.ok ["0xBB", "0xDD", "0xCC"]) ∧
    ∃ ids : List String, ids.Nodup ∧
      ["0xBB", "0xDD", "0xCC"] = ids.map (bytecodeOf diamondStore) ∧
      ∀ s ∈ ids, ∃ d, loadArtifact diamondStore s = Except.ok d ∧
        d.bytecode = bytecodeOf diamondStore s := by
  have h : extractFactoryDeps diamondStore artifactA =
      some (Except.ok ["0xBB", "0xDD", "0xCC"]) := by
    simp [extractFactoryDeps, extractFactoryDepsRecursive, extractFactoryDepsLoop,
      defaultFuel, loadArtifact, readArtifact, fqn, diamondStore, artifactA,
      artifactB, artifactC, artifactD, mkArtifact, List.lookup]
  exact ⟨h, extractFactoryDeps_no_duplicate_identities.1 diamondStore artifactA
    ["0xBB", "0xDD", "0xCC"] h⟩

/-- C4: on every finite artifact graph the resolution terminates (the default
fuel, one more than the store size, is never exhausted, because each level of
graph recursion permanently marks a fresh store key visited); on the mutual
cycle A→B→A rooted at A the output contains B's bytecode exactly once. -/
theorem extractFactoryDeps_terminates :
    (∀ (store : ArtifactStore) (a : ZkSyncArtifact),
      ∃ r, extractFactoryDeps store a = some r) ∧
    extractFactoryDeps cycleStore cycleA = some (Except.ok ["0xBB"]) ∧
    (["0xBB"] : List String).count "0xBB" = 1 := by
  refine ⟨extractFactoryDeps_total, ?_, by decide⟩
  simp [extractFactoryDeps, extractFactoryDepsRecursive, extractFactoryDepsLoop,
    defaultFuel, loadArtifact, readArtifact, fqn, cycleStore, cycleA, cycleB,
    mkArtifact, List.lookup]

theorem lookup_overrideAt {store : ArtifactStore} {name s : String}
    (b : ZkSyncArtifact) (hne : s ≠ name) :
    (overrideAt store name b).lookup s = store.lookup s := by
  induction store with
  | nil => simp [overrideAt, List.lookup]
  | cons p t ih =>
    obtain ⟨k, v⟩ := p
    by_cases hp : k = name
    · rw [overrideAt, List.map_cons, if_pos hp]
      have hb : (s == k) = false :=
        beq_false_of_ne (fun hsk => hne (hsk.trans hp))
      rw [List.lookup, List.lookup, hb]
      exact ih
    · rw [overrideAt, List.map_cons, if_neg hp]
      rw [List.lookup, List.lookup]
      cases hb : s == k with
      | true => rfl
      | false => exact ih

theorem loadArtifact_lookup_congr {store store' : ArtifactStore} {s : String}
    (h : store.lookup s = store'.lookup s) :
    loadArtifact store s = loadArtifact store' s := by
  unfold loadArtifact readArtifact
  rw [h]

/-- C3: deduplication is keyed on the fully-qualified identity (the value of
each `factoryDeps` entry), never on the dependency-hash key: erasing every
hash key leaves the output unchanged on every graph; two entries with
distinct keys naming the same identity load and emit it exactly once; two
entries with the same key naming different identities are both processed. -/
theorem extractFactoryDeps_dedup_by_identity :
    (∀ (store : ArtifactStore) (a : ZkSyncArtifact),
      extractFactoryDeps (mapStore eraseKeys store) (eraseKeys a) =
        extractFactoryDeps store a) ∧
    extractFactoryDeps sameIdStore sameIdRoot = some (Except.ok ["0xBB"]) ∧
    extractFactoryDeps equalKeyStore equalKeyRoot =
      some (Except.ok ["0xBB", "0xCC"]) := by
  refine ⟨?_, ?_, ?_⟩
  · intro store a
    rw [extractFactoryDeps_mapStore store eraseKeys id
      (fun a' => by simp [eraseKeys]) (fun a' => rfl) (fun a' => rfl)
      (fun a' => rfl) a]
    cases hx : extractFactoryDeps store a with
    | none => simp
    | some v =>
      cases v with
      | error e => simp [Except.map]
      | ok bs => simp [Except.map, List.map_id]
  · simp [extractFactoryDeps, extractFactoryDepsRecursive, extractFactoryDepsLoop,
      defaultFuel, loadArtifact, readArtifact, fqn, sameIdStore, sameIdRoot,
      mkArtifact, List.lookup]
  · simp [extractFactoryDeps, extractFactoryDepsRecursive, extractFactoryDepsLoop,
      defaultFuel, loadArtifact, readArtifact, fqn, equalKeyStore, equalKeyRoot,
      mkArtifact, List.lookup]

/-- C5: the root is never consulted in the store (overriding the artifact
stored under the root's identity changes nothing) and the root's identity is
never emitted, because the visited set is seeded with it; a root that
declares itself as its only dependency yields the empty sequence. -/
theorem root_never_loaded_or_emitted :
    (∀ (store : ArtifactStore) (a b : ZkSyncArtifact),
      extractFactoryDeps (overrideAt store (fqn a) b) a =
        extractFactoryDeps store a) ∧
    (∀ (store : ArtifactStore) (a : ZkSyncArtifact) (bs : List String),
      extractFactoryDeps store a = some (Except.ok bs) →
      ∃ ids : List String, fqn a ∉ ids ∧ bs = ids.map (bytecodeOf store)) ∧
    extractFactoryDeps selfStore selfRoot = some (Except.ok []) := by
  refine ⟨?_, ?_, ?_⟩
  · intro store a b
    have hagree : ∀ s, s ∉ [fqn a] →
        store.lookup s = (overrideAt store (fqn a) b).lookup s := by
      intro s hs
      have hne : s ≠ fqn a := by simpa using hs
      exact (lookup_overrideAt b hne).symm
    have hfuel : defaultFuel (overrideAt store (fqn a) b) = defaultFuel store := by
      simp [defaultFuel, overrideAt]
    unfold extractFactoryDeps extractFactoryDepsRecursive
    rw [hfuel, extractFactoryDepsLoop_eq_spec, extractFactoryDepsLoop_eq_spec,
      specPreorderLoop_agree store (overrideAt store (fqn a) b) (defaultFuel store)
        a.factoryDeps [fqn a] hagree]
    cases hs : specPreorderLoop store (defaultFuel store) a.factoryDeps [fqn a] with
    | none => simp
    | some v =>
      cases v with
      | error e => simp [Except.map]
      | ok p =>
        obtain ⟨ids, v'⟩ := p
        obtain ⟨_, hfresh, _, _⟩ :=
          specPreorderLoop_props store (defaultFuel store) a.factoryDeps
            [fqn a] ids v' hs
        simp only [Option.map_some', Except.map]
        have hmapeq : ids.map (bytecodeOf (overrideAt store (fqn a) b)) =
            ids.map (bytecodeOf store) := by
          apply List.map_congr_left
          intro s hsmem
          have hne : s ≠ fqn a := by
            have := hfresh s hsmem
            simpa using this
          unfold bytecodeOf
          rw [loadArtifact_lookup_congr (lookup_overrideAt b hne)]
        rw [hmapeq]
  · intro store a bs h
    obtain ⟨ids, v', hs, hbs⟩ := extractFactoryDeps_ok_spec h
    obtain ⟨_, hfresh, _, _⟩ :=
      specPreorderLoop_props store (defaultFuel store) a.factoryDeps
        [fqn a] ids v' hs
    refine ⟨ids, ?_, hbs⟩
    intro hmem
    exact hfresh (fqn a) hmem (List.mem_singleton.mpr rfl)
  · simp [extractFactoryDeps, extractFactoryDepsRecursive, extractFactoryDepsLoop,
      defaultFuel, loadArtifact, readArtifact, fqn, selfStore, selfRoot,
      mkArtifact, List.lookup]

/-- C5 witness: the self-referencing root satisfies the hypothesis of the
universal part of C5 and its output decomposes with the root absent. -/
theorem root_never_loaded_or_emitted_witness :
    extractFactoryDeps selfStore selfRoot = some (Except.ok []) ∧
    ∃ ids : List String, fqn selfRoot ∉ ids ∧
      ([] : List String) = ids.map (bytecodeOf selfStore) := by
  have h : extractFactoryDeps selfStore selfRoot = some (Except.ok []) := by
    simp [extractFactoryDeps, extractFactoryDepsRecursive, extractFactoryDepsLoop,
      defaultFuel, loadArtifact, readArtifact, fqn, selfStore, selfRoot,
      mkArtifact, List.lookup]
  exact ⟨h, root_never_loaded_or_emitted.2.1 selfStore selfRoot [] h⟩

/-- C6: every failure of `extractFactoryDeps` is a loader failure for some
identity, propagated unchanged (the error still names the offending
artifact) with no partial sequence in the result; a missing transitive
dependency `src:D` fails the whole call with NotFound for `src:D`. -/
theorem load_errors_propagate :
    (∀ (store : ArtifactStore) (a : ZkSyncArtifact) (e : LoadError),
      extractFactoryDeps store a = some (Except.error e) →
      ∃ s, loadArtifact store s = Except.error e ∧ e.artifactName = s) ∧
    extractFactoryDeps missingStore missingRoot =
      some (Except.error (LoadError.notFound "src:D")) := by
  refine ⟨?_, ?_⟩
  · intro store a e h
    obtain ⟨s, hs⟩ := specPreorderLoop_error_origin store (defaultFuel store)
      a.factoryDeps [fqn a] e (extractFactoryDeps_error_spec h)
    exact ⟨s, hs, loadArtifact_error_name hs⟩
  · simp [extractFactoryDeps, extractFactoryDepsRecursive, extractFactoryDepsLoop,
      defaultFuel, loadArtifact, readArtifact, fqn, missingStore, missingRoot,
      mkArtifact, List.lookup]

/-- C6 witness: on the missing-dependency graph the hypothesis of the
universal part of C6 holds and the error is a loader error naming `src:D`. -/
theorem load_errors_propagate_witness :
    extractFactoryDeps missingStore missingRoot =
      some (Except.error (LoadError.notFound "src:D")) ∧
    ∃ s, loadArtifact missingStore s =
        Except.error (LoadError.notFound "src:D") ∧
      (LoadError.notFound "src:D").artifactName = s := by
  have h : extractFactoryDeps missingStore missingRoot =
      some (Except.error (LoadError.notFound "src:D")) := by
    simp [extractFactoryDeps, extractFactoryDepsRecursive, extractFactoryDepsLoop,
      defaultFuel, loadArtifact, readArtifact, fqn, missingStore, missingRoot,
      mkArtifact, List.lookup]
  exact ⟨h, load_errors_propagate.1 missingStore missingRoot
    (LoadError.notFound "src:D") h⟩

/-- C7: when an artifact is read successfully, `loadArtifact` fails with
NotCompiledByExpectedToolchain (naming the requested contract) exactly when
the artifact's `_format` tag is neither the zksolc nor the zkvyper tag, and
returns the artifact unchanged otherwise. -/
theorem loadArtifact_toolchain_allowlist :
    ∀ (store : ArtifactStore) (s : String) (a : ZkSyncArtifact),
      readArtifact store s = some a →
      ((loadArtifact store s =
          Except.error (LoadError.notCompiledByExpectedToolchain s)) ↔
        (a._format ≠ ZKSOLC_ARTIFACT_FORMAT_VERSION ∧
          a._format ≠ ZKVYPER_ARTIFACT_FORMAT_VERSION)) ∧
      ((a._format = ZKSOLC_ARTIFACT_FORMAT_VERSION ∨
          a._format = ZKVYPER_ARTIFACT_FORMAT_VERSION) →
        loadArtifact store s = Except.ok a) := by
  intro store s a h
  unfold loadArtifact
  rw [h]
  dsimp only
  by_cases hf : a._format ≠ ZKSOLC_ARTIFACT_FORMAT_VERSION ∧
      a._format ≠ ZKVYPER_ARTIFACT_FORMAT_VERSION
  · rw [if_pos hf]
    refine ⟨⟨fun _ => hf, fun _ => rfl⟩, fun hor => ?_⟩
    exact absurd hor (by tauto)
  · rw [if_neg hf]
    constructor
    · constructor
      · intro hcontra
        exact absurd hcontra (by simp)
      · intro hff
        exact absurd hff hf
    · intro _
      rfl

/-- C7 witness: a stored artifact with the plain `solc` format tag is read
successfully and rejected by `loadArtifact` with the toolchain error. -/
theorem loadArtifact_toolchain_allowlist_witness :
    readArtifact badFormatStore "src:E" = some plainSolcArtifact ∧
    loadArtifact badFormatStore "src:E" =
      Except.error (LoadError.notCompiledByExpectedToolchain "src:E") := by
  have h : readArtifact badFormatStore "src:E" = some plainSolcArtifact := by
    simp [readArtifact, badFormatStore, List.lookup]
  refine ⟨h, ?_⟩
  exact ((loadArtifact_toolchain_allowlist badFormatStore "src:E"
    plainSolcArtifact h).1).mpr
    (by simp [plainSolcArtifact, ZKSOLC_ARTIFACT_FORMAT_VERSION,
      ZKVYPER_ARTIFACT_FORMAT_VERSION])

/-- C8: the resolver never inspects a dependency's bytecode value: mapping
every stored bytecode through an arbitrary function maps the output through
the same function elementwise (so no value, including the abstract sentinel
"0x", is special-cased), and a transitive dependency whose bytecode is "0x"
is emitted like any other dependency without error. -/
theorem resolver_ignores_bytecode :
    (∀ (f : String → String) (store : ArtifactStore) (a : ZkSyncArtifact),
      extractFactoryDeps (mapStore (mapBytecode f) store) (mapBytecode f a) =
        Option.map (Except.map (List.map f)) (extractFactoryDeps store a)) ∧
    extractFactoryDeps abstractStore abstractRoot = some (Except.ok ["0x"]) := by
  refine ⟨?_, ?_⟩
  · intro f store a
    exact extractFactoryDeps_mapStore store (mapBytecode f) f (fun a' => rfl)
      (fun a' => rfl) (fun a' => rfl) (fun a' => rfl) a
  · simp [extractFactoryDeps, extractFactoryDepsRecursive, extractFactoryDepsLoop,
      defaultFuel, loadArtifact, readArtifact, fqn, abstractStore, abstractRoot,
      mkArtifact, List.lookup]

/-- C9: a root artifact with an empty `factoryDeps` mapping yields the empty
sequence for every store (so the loader is never consulted: the result does
not depend on the store at all). -/
theorem empty_factoryDeps_empty_result :
    ∀ (store : ArtifactStore) (a : ZkSyncArtifact), a.factoryDeps = [] →
      extractFactoryDeps store a = some (Except.ok []) := by
  intro store a h
  unfold extractFactoryDeps extractFactoryDepsRecursive
  rw [h]
  simp [extractFactoryDepsLoop]

/-- C9 witness: the dependency-free artifact D yields the empty sequence. -/
theorem empty_factoryDeps_empty_result_witness :
    artifactD.factoryDeps = [] ∧
    extractFactoryDeps diamondStore artifactD = some (Except.ok []) :=
  ⟨rfl, empty_factoryDeps_empty_result diamondStore artifactD rfl⟩

/-- C10: for every artifact whose bytecode is the abstract sentinel "0x",
`getContractFactoryFromArtifact` throws the plugin error immediately — no
default wallet is resolved and no factory is constructed (the event trace is
empty) — and the message names the contract and directs the caller to
`getContractAt`. -/
theorem abstract_artifact_rejected :
    ∀ (a : ZkSyncArtifact) (walletOrOptions : Option (Wallet ⊕ FactoryOptions))
      (defaultWallet : Wallet), a.bytecode = "0x" →
      getContractFactoryFromArtifact a walletOrOptions defaultWallet =
        ([], Except.error (abstractContractMsg a.contractName)) ∧
      FactoryEvent.resolvedDefaultWallet ∉
        (getContractFactoryFromArtifact a walletOrOptions defaultWallet).1 ∧
      FactoryEvent.constructedFactory ∉
        (getContractFactoryFromArtifact a walletOrOptions defaultWallet).1 ∧
      ∃ pre mid post, abstractContractMsg a.contractName =
        pre ++ a.contractName ++ mid ++ "getContractAt" ++ post := by
  intro a wo dw h
  have hg : getContractFactoryFromArtifact a wo dw =
      ([], Except.error (abstractContractMsg a.contractName)) := by
    unfold getContractFactoryFromArtifact
    simp [h]
  refine ⟨hg, by simp [hg], by simp [hg], ?_⟩
  refine ⟨"You are trying to create a contract factory for the contract ",
    ", which is abstract and can\x27t be deployed.\nIf you want to call a contract using " ++
      a.contractName ++ " as its interface use the \x22",
    "\x22 function instead.", ?_⟩
  simp [abstractContractMsg, String.append_assoc]

/-- C10 witness: a concrete abstract artifact is rejected with the abstract
contract message and an empty event trace. -/
theorem abstract_artifact_rejected_witness :
    (mkArtifact "src" "F" "0x" []).bytecode = "0x" ∧
    getContractFactoryFromArtifact (mkArtifact "src" "F" "0x" []) none ⟨0⟩ =
      ([], Except.error (abstractContractMsg "F")) :=
  ⟨rfl, (abstract_artifact_rejected (mkArtifact "src" "F" "0x" []) none ⟨0⟩ rfl).1⟩
